import Mathlib

/-!
# Verification of the Intelligent Portfolio Optimizer demo

Shallow embedding of the computational core of
`examples/ai_enhanced_demo.py` (dual-method portfolio optimization demo)
and of the winner-analysis branch of `source/run_test.py`.

Return data is modelled exactly: a return series is a `List ℚ`, a return
matrix is a `Matrix (Fin T) (Fin N) ℚ` (T dates, N assets).  The scipy
SLSQP call inside `solve_optimization` is an external iterative
floating-point routine; it is modelled as an explicit parameter (`none`
for a non-converged solve, `some x` for a solve that reported success
with output `x`), exactly mirroring `result.x if result.success else
initial_weights`.  Quantities the Python code derives through `np.sqrt`
are valued in `ℝ` via `Real.sqrt`; everything else stays rational and
computable.
-/

namespace PortfolioDemo

/-- Mean of column `j` of the T×N return matrix: the per-asset mean that
`np.cov` subtracts before forming cross products. -/
def col_mean {T N : ℕ} (R : Matrix (Fin T) (Fin N) ℚ) (j : Fin N) : ℚ :=
  (∑ t, R t j) / (T : ℚ)

/-- The return matrix with every column re-centered at its mean. -/
def centered {T N : ℕ} (R : Matrix (Fin T) (Fin N) ℚ) :
    Matrix (Fin T) (Fin N) ℚ :=
  fun t j => R t j - col_mean R j

/-- `sample_cov = np.cov(returns_array.T)` (ai_enhanced_demo.py line 31):
numpy centers each variable (asset) at its mean and normalizes the matrix
of cross products by `T - 1` (default `ddof`). -/
def np_cov {T N : ℕ} (R : Matrix (Fin T) (Fin N) ℚ) :
    Matrix (Fin N) (Fin N) ℚ :=
  ((T : ℚ) - 1)⁻¹ • ((centered R).transpose * centered R)

/-- `initial_weights = np.array([1.0 / n_assets] * n_assets)`
(ai_enhanced_demo.py line 44). -/
def initial_weights (n : ℕ) : Fin n → ℚ := fun _ => 1 / (n : ℚ)

/-- `solve_optimization` (ai_enhanced_demo.py lines 38-48): the scipy
SLSQP call is the parameter `res` (`some x` when `result.success` with
`result.x = x`, `none` on non-convergence/infeasibility); the function
returns `result.x if result.success else initial_weights`.  `cov`,
`cmin`, `cmax` are the inputs the Python closure passes to the solver. -/
def solve_optimization {n : ℕ} (cov : Matrix (Fin n) (Fin n) ℚ)
    (cmin cmax : ℚ) (res : Option (Fin n → ℚ)) : Fin n → ℚ :=
  res.getD (initial_weights n)

/-- The sample-covariance branch of `optimize_portfolio_dual_methods`
(ai_enhanced_demo.py lines 24-52): the weight vector is whatever the
solver returns on the covariance matrix of the FULL return matrix `R`.
The solver is abstract (`solve`). -/
def optimize_weights {T N : ℕ}
    (solve : Matrix (Fin N) (Fin N) ℚ → Fin N → ℚ)
    (R : Matrix (Fin T) (Fin N) ℚ) : Fin N → ℚ :=
  solve (np_cov R)

/-- `sample_returns = (returns_data * sample_weights).sum(axis=1)`
(ai_enhanced_demo.py line 131): the realized portfolio return at date `t`
applies the single optimized weight vector to the returns of date `t`. -/
def realized_at {T N : ℕ}
    (solve : Matrix (Fin N) (Fin N) ℚ → Fin N → ℚ)
    (R : Matrix (Fin T) (Fin N) ℚ) (t : Fin T) : ℚ :=
  ∑ j, R t j * optimize_weights solve R j

/-- The no-look-ahead hyperproperty claimed of the demo: whatever the
solver does, two return series that agree on all dates strictly before
`t` yield the same weight vector applied at `t` (in this code one weight
vector is applied at every date). -/
def no_look_ahead : Prop :=
  ∀ (T N : ℕ) (solve : Matrix (Fin N) (Fin N) ℚ → Fin N → ℚ)
    (R R' : Matrix (Fin T) (Fin N) ℚ) (t : Fin T),
    (∀ s : Fin T, (s : ℕ) < (t : ℕ) → R s = R' s) →
    optimize_weights solve R = optimize_weights solve R'

/-- The WeightVector invariant of the spec: weights sum to 1 within
`1e-6` and every component lies in `[cmin, cmax]`. -/
def weights_invariant {n : ℕ} (w : Fin n → ℚ) (cmin cmax : ℚ) : Prop :=
  |(∑ i, w i) - 1| ≤ 1 / 1000000 ∧ ∀ i, cmin ≤ w i ∧ w i ≤ cmax

/-- `returns.mean()` for a monthly return series. -/
def mean (r : List ℚ) : ℚ := r.sum / (r.length : ℚ)

/-- `returns.std()` squared: pandas sample variance (`ddof = 1`),
guarded for series of length ≤ 1 (where pandas yields NaN; NaN
comparisons are falsy downstream, which the 0 value reproduces). -/
def sample_var (r : List ℚ) : ℚ :=
  if r.length ≤ 1 then 0
  else ((r.map fun x => (x - mean r) ^ 2).sum) / ((r.length : ℚ) - 1)

/-- `annual_ret = returns.mean() * 12` (ai_enhanced_demo.py line 136). -/
def annual_return (r : List ℚ) : ℚ := mean r * 12

/-- `annual_vol = returns.std() * np.sqrt(12)` (line 137). -/
noncomputable def annual_vol (r : List ℚ) : ℝ :=
  Real.sqrt (sample_var r) * Real.sqrt 12

/-- `sharpe = annual_ret / annual_vol if annual_vol > 0 else 0`
(line 138).  Note: no risk-free rate appears. -/
noncomputable def sharpe (r : List ℚ) : ℝ :=
  if 0 < annual_vol r then (annual_return r : ℝ) / annual_vol r else 0

/-- Modelled from the spec ("Sharpe = (annualized return − risk_free_rate)
/ annualized volatility (0 if volatility=0)"): the Sharpe ratio the spec
describes, with the risk-free rate subtracted in the numerator. -/
noncomputable def sharpe_from_spec (rf : ℚ) (r : List ℚ) : ℝ :=
  if 0 < annual_vol r then ((annual_return r : ℝ) - (rf : ℝ)) / annual_vol r
  else 0

/-- `'sortino_ratio': sample_metrics['sharpe_ratio'] * 1.1`
(ai_enhanced_demo.py lines 212 and 225): the reported Sortino value. -/
noncomputable def sortino_rep (r : List ℚ) : ℝ := sharpe r * (11 / 10)

/-- The negative-return periods of a series. -/
def downside (r : List ℚ) : List ℚ := r.filter fun x => decide (x < 0)

/-- Modelled from the spec ("Sortino derived analogously using downside
deviation only"): annualized deviation of the negative-return periods. -/
noncomputable def downside_vol (r : List ℚ) : ℝ :=
  Real.sqrt (sample_var (downside r)) * Real.sqrt 12

/-- Modelled from the spec: the Sortino ratio derived analogously to the
code's Sharpe ratio but with downside deviation in the denominator. -/
noncomputable def sortino_from_spec (r : List ℚ) : ℝ :=
  if 0 < downside_vol r then (annual_return r : ℝ) / downside_vol r else 0

/-- `cumulative = (1 + returns).cumprod()` (ai_enhanced_demo.py line
139), with the running product as accumulator. -/
def cumulative : ℚ → List ℚ → List ℚ
  | _, [] => []
  | acc, x :: xs => (acc * (1 + x)) :: cumulative (acc * (1 + x)) xs

/-- The cumulative-wealth series of a return series. -/
def cum_returns (r : List ℚ) : List ℚ := cumulative 1 r

/-- `series.expanding().max()` with seed `m`. -/
def running_max : ℚ → List ℚ → List ℚ
  | _, [] => []
  | m, x :: xs => max m x :: running_max (max m x) xs

/-- `cumulative.expanding().max()` (line 140). -/
def expanding_max : List ℚ → List ℚ
  | [] => []
  | x :: xs => x :: running_max x xs

/-- `(cumulative - cumulative.expanding().max()) /
cumulative.expanding().max()` (line 140), elementwise. -/
def drawdown_list (r : List ℚ) : List ℚ :=
  List.zipWith (fun c m => (c - m) / m) (cum_returns r)
    (expanding_max (cum_returns r))

/-- `series.min()` of a nonempty series (0 for the empty series, where
pandas yields NaN). -/
def list_min : List ℚ → ℚ
  | [] => 0
  | [x] => x
  | x :: y :: ys => min x (list_min (y :: ys))

/-- `max_dd = (...).min()` (ai_enhanced_demo.py line 140). -/
def max_drawdown (r : List ℚ) : ℚ := list_min (drawdown_list r)

/-- The spec's `cum_t`: cumulative product of `(1 + return)` up to and
including date `t` (0-indexed). -/
def cum_at (r : List ℚ) (t : ℕ) : ℚ :=
  ∏ s ∈ Finset.range (t + 1), (1 + r.getD s 0)

/-- The spec's `running_max_t`: running maximum of `cum` up to `t`. -/
def runmax_at (r : List ℚ) : ℕ → ℚ
  | 0 => cum_at r 0
  | t + 1 => max (runmax_at r t) (cum_at r (t + 1))

/-- The spec's drawdown at `t`: `(cum_t − running_max_t) / running_max_t`. -/
def dd_at (r : List ℚ) (t : ℕ) : ℚ :=
  (cum_at r t - runmax_at r t) / runmax_at r t

/-- Modelled from the spec (the CoverageFilter of §4.1 is implemented in
`source/portfolio/optimizer.py`, which is not among the repository files
available here; `run_test.py` only passes its parameters): a ticker with
`count` non-missing months in a window of `window_len` months is eligible
iff `count ≥ min_obs` and `missing_fraction ≤ max_missing`. -/
def coverage_eligible (count window_len min_obs : ℕ) (max_missing : ℚ) : Prop :=
  min_obs ≤ count ∧
    ((window_len - count : ℕ) : ℚ) / (window_len : ℚ) ≤ max_missing

/-- Total model of Python division: `none` is the `ZeroDivisionError`
branch. -/
def qdiv? (a b : ℚ) : Option ℚ := if b = 0 then none else some (a / b)

/-- Winner determination of ai_enhanced_demo.py lines 179-184: both
improvement formulas divide with no zero guard. -/
def winner_improvement (samp lw : ℚ) : Option ℚ :=
  if samp < lw then (qdiv? (lw - samp) samp).map (fun v => v * 100)
  else (qdiv? (samp - lw) lw).map (fun v => v * 100)

/-- Winner analysis of run_test.py lines 95-100: the else-branch division
is guarded by `if lw_sharpe != 0 else 0`. -/
def winner_improvement_rt (samp lw : ℚ) : Option ℚ :=
  if samp < lw then (qdiv? (lw - samp) samp).map (fun v => v * 100)
  else if lw = 0 then some 0
  else (qdiv? (samp - lw) lw).map (fun v => v * 100)
/-! ## Helper lemmas -/

lemma cumulative_length (r : List ℚ) : ∀ a : ℚ, (cumulative a r).length = r.length := by
  induction r with
  | nil => intro a; rfl
  | cons x xs ih => intro a; simp [cumulative, ih]

lemma running_max_length (l : List ℚ) : ∀ m : ℚ, (running_max m l).length = l.length := by
  induction l with
  | nil => intro m; rfl
  | cons x xs ih => intro m; simp [running_max, ih]

lemma expanding_max_length (l : List ℚ) : (expanding_max l).length = l.length := by
  cases l with
  | nil => rfl
  | cons x xs => simp [expanding_max, running_max_length]

lemma cum_returns_length (r : List ℚ) : (cum_returns r).length = r.length :=
  cumulative_length r 1

lemma drawdown_list_length (r : List ℚ) : (drawdown_list r).length = r.length := by
  simp [drawdown_list, cum_returns_length, expanding_max_length]

lemma cum_at_cons_zero (x : ℚ) (xs : List ℚ) : cum_at (x :: xs) 0 = 1 + x := by
  simp [cum_at]

lemma cum_at_cons_succ (x : ℚ) (xs : List ℚ) (t : ℕ) :
    cum_at (x :: xs) (t + 1) = (1 + x) * cum_at xs t := by
  rw [cum_at, Finset.prod_range_succ']
  simp only [List.getD_cons_succ, List.getD_cons_zero]
  rw [cum_at]
  ring

lemma cumulative_getD (r : List ℚ) : ∀ t : ℕ, t < r.length → ∀ a : ℚ,
    (cumulative a r).getD t 0 = a * cum_at r t := by
  induction r with
  | nil => intro t ht; simp at ht
  | cons x xs ih =>
    intro t ht a
    cases t with
    | zero => simp [cumulative, cum_at_cons_zero]
    | succ t =>
      have ht' : t < xs.length := by simpa using ht
      simp only [cumulative, List.getD_cons_succ]
      rw [ih t ht' (a * (1 + x)), cum_at_cons_succ]
      ring

lemma cum_returns_getD (r : List ℚ) (t : ℕ) (ht : t < r.length) :
    (cum_returns r).getD t 0 = cum_at r t := by
  simpa [cum_returns] using cumulative_getD r t ht 1

lemma running_max_getD_succ (l : List ℚ) : ∀ t : ℕ, t + 1 < l.length → ∀ m : ℚ,
    (running_max m l).getD (t + 1) 0 =
      max ((running_max m l).getD t 0) (l.getD (t + 1) 0) := by
  induction l with
  | nil => intro t ht; simp at ht
  | cons x xs ih =>
    intro t ht m
    cases t with
    | zero =>
      cases xs with
      | nil => simp at ht
      | cons y ys => simp [running_max]
    | succ t =>
      have ht' : t + 1 < xs.length := by simpa using ht
      simp only [running_max, List.getD_cons_succ]
      exact ih t ht' (max m x)

lemma expanding_max_getD_zero (l : List ℚ) (h : 0 < l.length) :
    (expanding_max l).getD 0 0 = l.getD 0 0 := by
  cases l with
  | nil => simp at h
  | cons x xs => simp [expanding_max]

lemma expanding_max_getD_succ (l : List ℚ) (t : ℕ) (ht : t + 1 < l.length) :
    (expanding_max l).getD (t + 1) 0 =
      max ((expanding_max l).getD t 0) (l.getD (t + 1) 0) := by
  cases l with
  | nil => simp at ht
  | cons x xs =>
    cases t with
    | zero =>
      cases xs with
      | nil => simp at ht
      | cons y ys => simp [expanding_max, running_max]
    | succ t =>
      have ht' : t + 1 < xs.length := by simpa using ht
      simp only [expanding_max, List.getD_cons_succ]
      exact running_max_getD_succ xs t ht' x

lemma expanding_max_cum_getD (r : List ℚ) : ∀ t : ℕ, t < r.length →
    (expanding_max (cum_returns r)).getD t 0 = runmax_at r t := by
  intro t
  induction t with
  | zero =>
    intro ht
    have h0 : 0 < (cum_returns r).length := by rw [cum_returns_length]; exact ht
    rw [expanding_max_getD_zero _ h0, cum_returns_getD r 0 ht]
    rfl
  | succ t ih =>
    intro ht
    have ht' : t < r.length := by omega
    have hl : t + 1 < (cum_returns r).length := by rw [cum_returns_length]; exact ht
    rw [expanding_max_getD_succ _ t hl, ih ht', cum_returns_getD r (t + 1) ht]
    rfl

lemma zipWith_getD (f : ℚ → ℚ → ℚ) : ∀ (l₁ l₂ : List ℚ) (t : ℕ),
    t < l₁.length → t < l₂.length →
    (List.zipWith f l₁ l₂).getD t 0 = f (l₁.getD t 0) (l₂.getD t 0) := by
  intro l₁
  induction l₁ with
  | nil => intro l₂ t ht; simp at ht
  | cons x xs ih =>
    intro l₂ t ht₁ ht₂
    cases l₂ with
    | nil => simp at ht₂
    | cons y ys =>
      cases t with
      | zero => simp
      | succ t =>
        simp only [List.zipWith_cons_cons, List.getD_cons_succ]
        exact ih ys t (by simpa using ht₁) (by simpa using ht₂)

lemma drawdown_list_getD (r : List ℚ) (t : ℕ) (ht : t < r.length) :
    (drawdown_list r).getD t 0 = dd_at r t := by
  have h1 : t < (cum_returns r).length := by rw [cum_returns_length]; exact ht
  have h2 : t < (expanding_max (cum_returns r)).length := by
    rw [expanding_max_length, cum_returns_length]; exact ht
  rw [drawdown_list, zipWith_getD _ _ _ t h1 h2, cum_returns_getD r t ht,
    expanding_max_cum_getD r t ht]
  rfl

lemma list_min_le_getD : ∀ (l : List ℚ) (t : ℕ), t < l.length → list_min l ≤ l.getD t 0 := by
  intro l
  induction l with
  | nil => intro t ht; simp at ht
  | cons x xs ih =>
    intro t ht
    cases xs with
    | nil =>
      have ht0 : t = 0 := by simpa [Nat.lt_one_iff] using ht
      subst ht0
      simp [list_min]
    | cons y ys =>
      cases t with
      | zero => simp [list_min]
      | succ t =>
        have := ih t (by simpa using ht)
        simp only [list_min, List.getD_cons_succ]
        exact le_trans (min_le_right _ _) this

lemma list_min_attained : ∀ l : List ℚ, l ≠ [] →
    ∃ t, t < l.length ∧ list_min l = l.getD t 0 := by
  intro l
  induction l with
  | nil => intro h; exact absurd rfl h
  | cons x xs ih =>
    intro
    cases xs with
    | nil => exact ⟨0, by norm_num, rfl⟩
    | cons y ys =>
      obtain ⟨t, ht, heq⟩ := ih (by simp)
      by_cases hx : x ≤ list_min (y :: ys)
      · exact ⟨0, by simp, by simp [list_min, min_eq_left hx]⟩
      · push_neg at hx
        refine ⟨t + 1, by simpa using ht, ?_⟩
        simp only [list_min, List.getD_cons_succ]
        rw [min_eq_right (le_of_lt hx), heq]

lemma sample_var_c4 : sample_var [2, 2, -1] = 3 := by
  norm_num [sample_var, mean]

lemma annual_return_c4 : annual_return [2, 2, -1] = 12 := by
  norm_num [annual_return, mean]

lemma annual_vol_c4 : annual_vol [2, 2, -1] = 6 := by
  rw [annual_vol, sample_var_c4]
  push_cast
  rw [← Real.sqrt_mul (by norm_num : (0:ℝ) ≤ 3)]
  rw [show (3 * 12 : ℝ) = 6 ^ 2 by norm_num]
  exact Real.sqrt_sq (by norm_num)

lemma sample_var_c5 : sample_var [1/10, 2/10, 3/10] = 1/100 := by
  norm_num [sample_var, mean]

lemma annual_return_c5 : annual_return [1/10, 2/10, 3/10] = 12/5 := by
  norm_num [annual_return, mean]

lemma downside_c5 : downside [1/10, 2/10, 3/10] = [] := by
  norm_num [downside, List.filter]

lemma annual_vol_c5_pos : 0 < annual_vol [1/10, 2/10, 3/10] := by
  rw [annual_vol, sample_var_c5]
  apply mul_pos
  · apply Real.sqrt_pos.mpr
    push_cast
    norm_num
  · apply Real.sqrt_pos.mpr
    norm_num

/-! ## Claim theorems -/

/-- Claim C1, counterexample: the no-look-ahead hyperproperty is FALSE for
`ai_enhanced_demo.py`: the weight vector applied at date `t` is computed
from `np.cov` of the FULL return series, so two series that agree on all
dates strictly before `t` but differ at `t` can produce different
covariance inputs, hence different weights, whatever solver behavior is
plugged in. -/
theorem no_look_ahead_fails : ¬ no_look_ahead := by
  intro h
  have hagree : ∀ s : Fin 2, (s : ℕ) < ((1 : Fin 2) : ℕ) →
      Matrix.of ![![(0:ℚ), 0], ![1, 0]] s = Matrix.of ![![(0:ℚ), 0], ![3, 0]] s := by
    intro s hs
    fin_cases s
    · rfl
    · simp at hs
  have heq := h 2 2 (fun C _ => C 0 0)
    (Matrix.of ![![(0:ℚ), 0], ![1, 0]]) (Matrix.of ![![(0:ℚ), 0], ![3, 0]]) 1 hagree
  have hv := congrFun heq 0
  simp only [optimize_weights] at hv
  rw [show np_cov (Matrix.of ![![(0:ℚ), 0], ![1, 0]]) 0 0 = 1/2 from by
        simp [np_cov, centered, col_mean, Matrix.mul_apply, Matrix.transpose_apply,
          Matrix.smul_apply, Fin.sum_univ_two, Matrix.of_apply, Matrix.cons_val_zero,
          Matrix.cons_val_one, Matrix.head_cons]
        norm_num,
      show np_cov (Matrix.of ![![(0:ℚ), 0], ![3, 0]]) 0 0 = 9/2 from by
        simp [np_cov, centered, col_mean, Matrix.mul_apply, Matrix.transpose_apply,
          Matrix.smul_apply, Fin.sum_univ_two, Matrix.of_apply, Matrix.cons_val_zero,
          Matrix.cons_val_one, Matrix.head_cons]
        norm_num] at hv
  norm_num at hv

/-- Claim C1, amended: the weight vector the demo applies at every date
`t` is derived from the covariance matrix of the entire return series
(dates `≥ t` included): series with equal full-sample covariance matrices
yield identical weights, but agreement strictly before `t` is not enough
(see the counterexample). -/
theorem weights_from_full_sample {T N : ℕ}
    (solve : Matrix (Fin N) (Fin N) ℚ → Fin N → ℚ)
    (R R' : Matrix (Fin T) (Fin N) ℚ) (h : np_cov R = np_cov R') :
    optimize_weights solve R = optimize_weights solve R' := by
  simp [optimize_weights, h]

/-- Claim C1, witness: two distinct one-asset series with equal
full-sample covariance get identical weights. -/
theorem weights_from_full_sample_witness :
    optimize_weights (fun C _ => C 0 0) (Matrix.of ![![(0:ℚ)], ![1]]) =
      optimize_weights (fun C _ => C 0 0) (Matrix.of ![![(1:ℚ)], ![0]]) :=
  weights_from_full_sample (fun C _ => C 0 0) _ _ (by
    funext i j
    fin_cases i
    fin_cases j
    simp [np_cov, centered, col_mean, Matrix.mul_apply, Matrix.transpose_apply,
      Matrix.smul_apply, Fin.sum_univ_two, Matrix.of_apply, Matrix.cons_val_zero,
      Matrix.cons_val_one, Matrix.head_cons]
    norm_num)

/-- Claim C2, counterexample: the WeightVector invariant does not hold
for every constraint set on the fallback path: with 20 assets and
`max_weight = 0.03` the fallback returns `1/20 = 0.05 > 0.03`. -/
theorem weights_invariant_fails :
    ¬ ∀ (n : ℕ) (cov : Matrix (Fin n) (Fin n) ℚ) (cmin cmax : ℚ),
      weights_invariant (solve_optimization cov cmin cmax none) cmin cmax := by
  intro h
  obtain ⟨-, hb⟩ := h 20 0 0 (3/100)
  have := (hb ⟨0, by norm_num⟩).2
  simp [solve_optimization, initial_weights] at this
  norm_num at this

/-- Claim C2, amended: on the non-convergence fallback path the returned
weights sum to exactly 1 (hence within `1e-6`), and every component lies
in `[min_weight, max_weight]` precisely when `min_weight ≤ 1/N ≤
max_weight` (as with the demo's own constraints 0 and 0.25). -/
theorem weights_invariant_fallback {n : ℕ} (cov : Matrix (Fin n) (Fin n) ℚ)
    (cmin cmax : ℚ) (h0 : 0 < n) (h1 : cmin ≤ 1 / (n : ℚ)) (h2 : 1 / (n : ℚ) ≤ cmax) :
    weights_invariant (solve_optimization cov cmin cmax none) cmin cmax := by
  have hn : (n : ℚ) ≠ 0 := Nat.cast_ne_zero.mpr h0.ne'
  constructor
  · have : ∑ i, solve_optimization cov cmin cmax none i = 1 := by
      simp [solve_optimization, initial_weights, Finset.sum_const, Finset.card_univ]
      field_simp
    rw [this]
    norm_num
  · intro i
    exact ⟨h1, h2⟩

/-- Claim C2, witness: the demo's constraints (`min_weight = 0`,
`max_weight = 0.25`, 20 assets) do satisfy the invariant on the fallback
path. -/
theorem weights_invariant_fallback_witness :
    weights_invariant (solve_optimization (0 : Matrix (Fin 20) (Fin 20) ℚ) 0 (1/4) none)
      0 (1/4) :=
  weights_invariant_fallback 0 0 (1/4) (by norm_num) (by norm_num) (by norm_num)

/-- Claim C3: on non-convergence (`result.success = False`, modelled as
`res = none`) `solve_optimization` returns exactly the equal-weight
vector: every component is `1/N` and the components sum to 1; being a
total function, it never aborts. -/
theorem fallback_equal_weights {n : ℕ} (cov : Matrix (Fin n) (Fin n) ℚ)
    (cmin cmax : ℚ) (h : 0 < n) :
    (∀ i, solve_optimization cov cmin cmax none i = 1 / (n : ℚ)) ∧
      ∑ i, solve_optimization cov cmin cmax none i = 1 := by
  have hn : (n : ℚ) ≠ 0 := Nat.cast_ne_zero.mpr h.ne'
  constructor
  · intro i; rfl
  · simp [solve_optimization, initial_weights, Finset.sum_const, Finset.card_univ]
    field_simp

/-- Claim C3, witness: the fallback at `N = 3` assigns `1/3` to each
asset. -/
theorem fallback_equal_weights_witness :
    (∀ i, solve_optimization (0 : Matrix (Fin 3) (Fin 3) ℚ) 0 1 none i = 1 / (3 : ℚ)) ∧
      ∑ i, solve_optimization (0 : Matrix (Fin 3) (Fin 3) ℚ) 0 1 none i = 1 :=
  fallback_equal_weights 0 0 1 (by norm_num)

/-- Claim C4, counterexample: `calc_metrics` does NOT subtract the
risk-free rate: on the series `[2, 2, -1]` the code's Sharpe ratio is
`12/6 = 2`, while the spec's formula with `risk_free_rate = 0.042` gives
`(12 - 0.042)/6`. -/
theorem sharpe_ignores_risk_free :
    sharpe [2, 2, -1] ≠ sharpe_from_spec (21/500) [2, 2, -1] := by
  rw [sharpe, sharpe_from_spec, annual_vol_c4, annual_return_c4]
  norm_num

/-- Claim C4, amended: the computed Sharpe ratio equals annualized return
(mean·12) divided by annualized volatility (std·√12) with NO risk-free
rate subtracted, and equals 0 when the annualized volatility is 0. -/
theorem sharpe_no_excess_return (r : List ℚ) :
    (0 < annual_vol r → sharpe r = (annual_return r : ℝ) / annual_vol r) ∧
      (annual_vol r = 0 → sharpe r = 0) := by
  constructor
  · intro h
    rw [sharpe, if_pos h]
  · intro h
    rw [sharpe, h]
    norm_num

/-- Claim C4, witness: on `[2, 2, -1]` the volatility is positive and the
ratio formula applies. -/
theorem sharpe_no_excess_return_witness :
    sharpe [2, 2, -1] = (annual_return [2, 2, -1] : ℝ) / annual_vol [2, 2, -1] :=
  (sharpe_no_excess_return [2, 2, -1]).1 (by rw [annual_vol_c4]; norm_num)

/-- Claim C5 (code bug): the reported Sortino ratio is the hard-coded
value `sharpe * 1.1`, not a downside-deviation-based ratio: on the
all-positive series `[0.1, 0.2, 0.3]` the downside set is empty, so a
downside-deviation Sortino is 0, while the code reports a positive
number. -/
theorem sortino_is_sharpe_scaled :
    sortino_rep [1/10, 2/10, 3/10] ≠ sortino_from_spec [1/10, 2/10, 3/10] ∧
      sortino_from_spec [1/10, 2/10, 3/10] = 0 := by
  have hspec : sortino_from_spec [1/10, 2/10, 3/10] = 0 := by
    rw [sortino_from_spec, downside_vol, downside_c5]
    norm_num [sample_var]
  have hsharpe : 0 < sharpe [1/10, 2/10, 3/10] := by
    rw [sharpe, if_pos annual_vol_c5_pos]
    apply div_pos _ annual_vol_c5_pos
    rw [annual_return_c5]
    push_cast
    norm_num
  refine ⟨?_, hspec⟩
  rw [hspec, sortino_rep]
  intro h0
  have := mul_pos hsharpe (by norm_num : (0:ℝ) < 11/10)
  rw [h0] at this
  exact lt_irrefl 0 this

/-- Claim C6: with `min_observations = 36` and `max_missing_pct = 0.10`,
a ticker with only 31 of 36 non-missing months (5 missing, a missing
fraction of 5/36 > 10%) is not eligible. -/
theorem missing_five_excluded :
    ¬ coverage_eligible 31 36 36 (1/10) ∧ (1/10 : ℚ) < ((36 - 31 : ℕ) : ℚ) / 36 := by
  constructor
  · intro hc
    exact absurd hc.1 (by norm_num)
  · norm_num

/-- Claim C7: `max_drawdown` equals the minimum over `t` of
`(cum_t − running_max_t)/running_max_t`: it is a lower bound of every
`dd_at r t` and is attained at some `t`. -/
theorem max_drawdown_is_min (r : List ℚ) (h : r ≠ []) :
    (∀ t, t < r.length → max_drawdown r ≤ dd_at r t) ∧
      ∃ t, t < r.length ∧ max_drawdown r = dd_at r t := by
  have hlen : (drawdown_list r).length = r.length := drawdown_list_length r
  constructor
  · intro t ht
    have hb := list_min_le_getD (drawdown_list r) t (by rw [hlen]; exact ht)
    rw [drawdown_list_getD r t ht] at hb
    exact hb
  · have hne : drawdown_list r ≠ [] := by
      apply List.ne_nil_of_length_pos
      rw [hlen]
      exact List.length_pos.mpr h
    obtain ⟨t, ht, heq⟩ := list_min_attained _ hne
    rw [hlen] at ht
    refine ⟨t, ht, ?_⟩
    rw [max_drawdown, heq, drawdown_list_getD r t ht]

/-- Claim C7, witness: the characterization at the concrete series
`[1/2, -1/4]`. -/
theorem max_drawdown_is_min_witness :
    (∀ t, t < ([(1:ℚ)/2, -1/4] : List ℚ).length →
        max_drawdown [(1:ℚ)/2, -1/4] ≤ dd_at [(1:ℚ)/2, -1/4] t) ∧
      ∃ t, t < ([(1:ℚ)/2, -1/4] : List ℚ).length ∧
        max_drawdown [(1:ℚ)/2, -1/4] = dd_at [(1:ℚ)/2, -1/4] t :=
  max_drawdown_is_min [(1:ℚ)/2, -1/4] (List.cons_ne_nil _ _)

/-- Claim C9: for a non-empty series whose prefix products of
`(1 + return)` are all nonzero, the computed max drawdown is ≤ 0 (the
drawdown at `t = 0` is 0, so the minimum cannot be positive). -/
theorem max_drawdown_nonpos (r : List ℚ) (h : r ≠ [])
    (hz : ∀ t, t < r.length → cum_at r t ≠ 0) : max_drawdown r ≤ 0 := by
  have h0 : 0 < r.length := List.length_pos.mpr h
  have hb := list_min_le_getD (drawdown_list r) 0 (by rw [drawdown_list_length]; exact h0)
  rw [drawdown_list_getD r 0 h0] at hb
  have hdd : dd_at r 0 = 0 := by
    rw [dd_at, show runmax_at r 0 = cum_at r 0 from rfl, sub_self, zero_div]
  rw [hdd] at hb
  exact hb

/-- Claim C9, witness: at `[1/2, -1/4]` the hypotheses hold and the max
drawdown is nonpositive. -/
theorem max_drawdown_nonpos_witness : max_drawdown [(1:ℚ)/2, -1/4] ≤ 0 := by
  apply max_drawdown_nonpos [(1:ℚ)/2, -1/4] (List.cons_ne_nil _ _)
  intro t ht
  simp only [List.length_cons, List.length_nil] at ht
  interval_cases t <;> norm_num [cum_at, Finset.prod_range_succ]

/-- Claim C8: the embedded `np.cov` output equals the unbiased sample
covariance matrix — entry `(i, j)` is the sum over dates of the cross
products of deviations from the column means divided by `T − 1` — and is
symmetric. -/
theorem np_cov_unbiased_symmetric {T N : ℕ} (R : Matrix (Fin T) (Fin N) ℚ) (h : 2 ≤ T) :
    (∀ i j, np_cov R i j =
        (∑ t, (R t i - col_mean R i) * (R t j - col_mean R j)) / ((T : ℚ) - 1)) ∧
      ∀ i j, np_cov R i j = np_cov R j i := by
  have key : ∀ i j, np_cov R i j =
      (∑ t, (R t i - col_mean R i) * (R t j - col_mean R j)) / ((T : ℚ) - 1) := by
    intro i j
    simp [np_cov, centered, Matrix.mul_apply, Matrix.transpose_apply, Matrix.smul_apply]
    rw [div_eq_inv_mul]
  refine ⟨key, fun i j => ?_⟩
  rw [key i j, key j i]
  congr 1
  exact Finset.sum_congr rfl fun t _ => by ring

/-- Claim C8, witness: the formula and symmetry at a concrete 2×1 return
matrix. -/
theorem np_cov_unbiased_symmetric_witness :
    (∀ i j, np_cov (Matrix.of ![![(0:ℚ)], ![1]]) i j =
        (∑ t, (Matrix.of ![![(0:ℚ)], ![1]] t i - col_mean (Matrix.of ![![(0:ℚ)], ![1]]) i) *
          (Matrix.of ![![(0:ℚ)], ![1]] t j - col_mean (Matrix.of ![![(0:ℚ)], ![1]]) j)) /
            ((2 : ℚ) - 1)) ∧
      ∀ i j, np_cov (Matrix.of ![![(0:ℚ)], ![1]]) i j = np_cov (Matrix.of ![![(0:ℚ)], ![1]]) j i :=
  np_cov_unbiased_symmetric (Matrix.of ![![(0:ℚ)], ![1]]) (by norm_num)

/-- Claim C10: in the total embedding, the winner-determination of
`ai_enhanced_demo.py` hits the division error branch when the
Ledoit-Wolf Sharpe ratio is 0 and not greater than the sample Sharpe
ratio, while `run_test.py`'s guarded version returns 0 there. -/
theorem winner_div_zero_reachable :
    winner_improvement 1 0 = none ∧ winner_improvement_rt 1 0 = some 0 := by
  decide

end PortfolioDemo
